import Mathlib

/-!
Verification of the tridactyl-native messaging bridge (src/main.rs, src/commands.rs).

The development shallowly embeds the command dispatcher and the operation
handlers.  JSON values are modelled by the inductive `JValue`; the host
filesystem and process environment are modelled by explicit state records
(`Fs`, `World`) threaded through the handlers.  Rust code that can panic
(`unwrap` on a fallible operation) is embedded with `Option`: a `none`
result of a handler means the process aborts instead of producing a
response.  External OS behaviour (child processes, the temp-file name
randomizer) is supplied by oracle fields of `World`.
-/

set_option autoImplicit false

namespace Tridactyl

/-- Model of `serde_json::Value`.  Objects keep their fields in insertion
order, matching the order the `json!` literals in the source construct
them with. -/
inductive JValue where
  | null
  | bool (b : Bool)
  | num (n : Int)
  | str (s : String)
  | arr (elems : List JValue)
  | obj (fields : List (String × JValue))

/-- Rust `Map::get` on a JSON object: the first binding of the key. -/
def jLookup (fields : List (String × JValue)) (key : String) : Option JValue :=
  (fields.find? (fun kv => kv.1 = key)).map (fun kv => kv.2)

/-- Rust `Value::as_str`: `Some` exactly on JSON strings. -/
def asStr : JValue → Option String
  | .str s => some s
  | _ => none

/-- Rust `Value::as_bool`: `Some` exactly on JSON booleans. -/
def asBool : JValue → Option Bool
  | .bool b => some b
  | _ => none

/-- Rust `map.get(k).and_then(|v| v.as_str()).unwrap_or_default()`. -/
def getStrD (fields : List (String × JValue)) (key : String) : String :=
  match (jLookup fields key).bind asStr with
  | some s => s
  | none => ""

/-- Rust `map.get(k).and_then(|v| v.as_bool()).unwrap_or(false)`. -/
def getBoolD (fields : List (String × JValue)) (key : String) : Bool :=
  match (jLookup fields key).bind asBool with
  | some b => b
  | none => false

/-- The string the dispatcher matches on: `Value::String(n) => n, _ => ""`. -/
def strOr : JValue → String
  | .str s => s
  | _ => ""

/-- Model of the filesystem: a flat map from paths to file contents, a set
of existing directories, and a set of paths on which opening for read or
write fails (permission errors and the like). -/
structure Fs where
  files : List (String × String)
  dirs : List String
  locked : List String
deriving Repr, DecidableEq

/-- The process-level state and OS oracles a single request can observe.
`spawnOk`/`waitResult` drive the one `sh -c` spawn a `run` request makes
(`waitResult = some (some c)`: the child exited with status `c`;
`some none`: no exit status, e.g. killed by a signal; `none`: `wait`
itself failed).  `tempOk`/`tempRand` drive `tempfile::Builder`. -/
structure World where
  fs : Fs
  envm : List (String × String)
  home : String
  configDir : String
  tempDir : String
  tempRand : String
  tempOk : Bool
  pid : Nat
  spawnOk : Bool
  waitResult : Option (Option Int)
deriving Repr, DecidableEq

/-! ### Filesystem primitives -/

def lookupFile (fs : Fs) (p : String) : Option String :=
  (fs.files.find? (fun kv => kv.1 = p)).map (fun kv => kv.2)

/-- Rust `std::fs::exists` (any kind of entry). -/
def fsExists (fs : Fs) (p : String) : Bool :=
  fs.files.any (fun kv => kv.1 = p) || fs.dirs.contains p

def eraseFile (fs : Fs) (p : String) : List (String × String) :=
  fs.files.filter (fun kv => kv.1 ≠ p)

def insertFile (fs : Fs) (p content : String) : Fs :=
  { fs with files := (p, content) :: eraseFile fs p }

/-- Rust `File::create`: creates or truncates the file.  Fails when the path
names a directory or opening for write is not permitted. -/
def createFile (fs : Fs) (p : String) : Option Fs :=
  if fs.dirs.contains p || fs.locked.contains p then none
  else some (insertFile fs p "")

/-- Rust `write_all` on a freshly created file handle: in the model a write on
a successfully opened file always succeeds. -/
def writeAllFile (fs : Fs) (p content : String) : Fs :=
  insertFile fs p content

/-- Rust `std::fs::read_to_string`: fails on a missing entry, a directory, or
an unreadable path. -/
def readToString (fs : Fs) (p : String) : Option String :=
  if fs.locked.contains p then none else lookupFile fs p

/-- Rust `std::fs::remove_file`: fails unless the path names an existing file. -/
def removeFile (fs : Fs) (p : String) : Option Fs :=
  if fs.files.any (fun kv => kv.1 = p) then
    some { fs with files := eraseFile fs p }
  else none

/-- Rust `std::fs::rename`.  Renaming a file over an existing file succeeds
(POSIX); renaming onto a directory fails; renaming a directory moves the
directory entry. -/
def renameFs (fs : Fs) (src dst : String) : Option Fs :=
  match lookupFile fs src with
  | some content =>
    if fs.dirs.contains dst then none
    else some { fs with files := (dst, content) :: (eraseFile fs src).filter (fun kv => kv.1 ≠ dst) }
  | none =>
    if fs.dirs.contains src then
      some { fs with dirs := dst :: fs.dirs.erase src }
    else none

/-- Rust `std::fs::create_dir_all`: idempotent, fails when a file is in the
way. -/
def createDirAll (fs : Fs) (p : String) : Option Fs :=
  if fs.files.any (fun kv => kv.1 = p) then none
  else if fs.dirs.contains p then some fs
  else some { fs with dirs := p :: fs.dirs }

/-- Rust `Path::canonicalize`: succeeds exactly on existing paths; the model
uses the path itself as its canonical form. -/
def canonicalizeFs (fs : Fs) (p : String) : Option String :=
  if fsExists fs p then some p else none

/-! ### Path manipulation

(The string primitives are re-implemented on `List Char` so that every
definition evaluates by kernel reduction.) -/

def strStartsWith (s pre : String) : Bool :=
  pre.toList.isPrefixOf s.toList

def strEndsWith (s suf : String) : Bool :=
  suf.toList.reverse.isPrefixOf s.toList.reverse

def strDrop (s : String) (n : Nat) : String :=
  String.mk (s.toList.drop n)

/-- Split a character list at every occurrence of `sep` (like
`String::split`). -/
def splitOnChar (sep : Char) : List Char → List (List Char)
  | [] => [[]]
  | c :: rest =>
    let r := splitOnChar sep rest
    if c = sep then [] :: r
    else
      match r with
      | h :: t => (c :: h) :: t
      | [] => [[c]]

/-- Rust `PathBuf::join` on Unix: an absolute right operand replaces the whole
path, otherwise the operand is appended behind a separator. -/
def pathJoin (base p : String) : String :=
  if strStartsWith p "/" then p
  else if base = "" then p
  else if strEndsWith base "/" then base ++ p
  else base ++ "/" ++ p

/-- Rust `Path::file_name` on Unix: the last normal component; `none` when the
path is empty or ends in `..` (or consists only of separators and `.`
components). -/
def fileName (p : String) : Option String :=
  let parts := (splitOnChar '/' p.toList).filter (fun s => s ≠ [] && s ≠ ['.'])
  match parts.getLast? with
  | none => none
  | some last => if last = ['.', '.'] then none else some (String.mk last)

/-- Characters of a path list with trailing separators removed. -/
def dropTrailingSlashes (cs : List Char) : List Char :=
  (cs.reverse.dropWhile (fun c => c = '/')).reverse

/-- Rust `Path::parent` on Unix: the path without its final component; `none`
for the empty path and for the root. -/
def parentPath (p : String) : Option String :=
  let q := dropTrailingSlashes p.toList
  if q = [] then none
  else
    let rev := q.reverse
    let restRev := rev.dropWhile (fun c => c ≠ '/')
    if restRev = [] then some ""
    else
      let par := dropTrailingSlashes restRev.reverse
      if par = [] then some "/" else some (String.mk par)

/-- Rust `expand_tilde` (commands.rs:28).  Note `home.join(&path[1..])`: when
the remainder after `~` is absolute (as in `~/foo`, whose remainder is
`/foo`), `join` replaces the home directory entirely. -/
def expand_tilde (home : String) (path : String) : String :=
  if strStartsWith path "~" then pathJoin home (strDrop path 1)
  else path

/-- The target platform of the bridge is a Unix system: `cfg!(unix)`. -/
def cfg_unix : Bool := true

/-- ASCII model of the regex class `\w`. -/
def isWordChar (c : Char) : Bool := c.isAlphanum || c = '_'

def lbrace : Char := Char.ofNat 123
def rbrace : Char := Char.ofNat 125

def lookupEnv (envm : List (String × String)) (key : String) : Option String :=
  (envm.find? (fun kv => kv.1 = key)).map (fun kv => kv.2)

/-- Scan for a closing brace: the characters before it and the rest after
it (the regex fragment `\{[^}]*\}`). -/
def findRBrace : List Char → Option (List Char × List Char)
  | [] => none
  | c :: rest =>
    if c = rbrace then some ([], rest)
    else
      match findRBrace rest with
      | some (a, b) => some (c :: a, b)
      | none => none

/-- The interpolation loop of `expand_vars` (commands.rs:44-71): replace
each `$NAME` / `${NAME}` occurrence by its environment value, leaving
unresolved occurrences verbatim.  The `fuel` argument only serves
structural termination; the wrapper passes the input length, which is
always sufficient because every step consumes at least one character. -/
def expandVarsGo (envm : List (String × String)) : Nat → List Char → List Char
  | 0, cs => cs
  | _ + 1, [] => []
  | fuel + 1, c :: rest =>
    if c = '$' then
      match rest with
      | [] => ['$']
      | d :: rest₂ =>
        if d = lbrace then
          match findRBrace rest₂ with
          | some (nameCs, after) =>
            (match lookupEnv envm (String.mk nameCs) with
             | some v => v.toList
             | none => '$' :: lbrace :: (nameCs ++ [rbrace])) ++ expandVarsGo envm fuel after
          | none => '$' :: expandVarsGo envm fuel rest
        else if isWordChar d then
          let nameCs := d :: rest₂.takeWhile isWordChar
          let after := rest₂.dropWhile isWordChar
          (match lookupEnv envm (String.mk nameCs) with
           | some v => v.toList
           | none => '$' :: nameCs) ++ expandVarsGo envm fuel after
        else '$' :: expandVarsGo envm fuel rest
    else c :: expandVarsGo envm fuel rest

/-- Rust `expand_vars` (commands.rs:37-75). -/
def expand_vars (envm : List (String × String)) (path : String) : String :=
  if ¬ (path.toList.contains '$') then path
  else if cfg_unix then String.mk (expandVarsGo envm path.toList.length path.toList)
  else path

/-- The expansion every file-path argument undergoes (environment
variables, then the tilde). -/
def expandPath (envm : List (String × String)) (home path : String) : String :=
  expand_tilde home (expand_vars envm path)

/-! ### Small string utilities used by the handlers -/

/-- Rust `String::replace("..", ".")`: one left-to-right pass over the string,
replacing non-overlapping occurrences. -/
def replaceDotDot : List Char → List Char
  | '.' :: '.' :: rest => '.' :: replaceDotDot rest
  | c :: rest => c :: replaceDotDot rest
  | [] => []

/-- Rust `sanitize_file_name` (commands.rs:17-26): lowercase, keep only
alphanumerics and `.`, then a single-pass replace of `..` by `.`.
Case mapping and the alphanumeric test are modelled on ASCII. -/
def sanitize_file_name (file_name : String) : String :=
  String.mk (replaceDotDot ((file_name.toList.map Char.toLower).filter
    (fun c => c.isAlphanum || c = '.')))

/-- Rust `str::split_whitespace`, accumulating the current token in reverse. -/
def wsSplitGo : List Char → List Char → List String
  | [], acc => if acc.isEmpty then [] else [String.mk acc.reverse]
  | c :: rest, acc =>
    if c.isWhitespace then
      if acc.isEmpty then wsSplitGo rest []
      else String.mk acc.reverse :: wsSplitGo rest []
    else wsSplitGo rest (c :: acc)

def splitWhitespace (s : String) : List String :=
  wsSplitGo s.toList []

/-! ### Base64 (the `base64` crate's `BASE64_STANDARD` engine: standard
alphabet, canonical padding required, trailing bits rejected) -/

def b64Val (c : Char) : Option Nat :=
  if 'A' ≤ c ∧ c ≤ 'Z' then some (c.toNat - 65)
  else if 'a' ≤ c ∧ c ≤ 'z' then some (c.toNat - 97 + 26)
  else if '0' ≤ c ∧ c ≤ '9' then some (c.toNat - 48 + 52)
  else if c = '+' then some 62
  else if c = '/' then some 63
  else none

/-- Decode base64 text to bytes.  `none` models a `DecodeError`. -/
def base64Decode : List Char → Option (List Nat)
  | [] => some []
  | a :: b :: c :: d :: rest =>
    match b64Val a, b64Val b with
    | some va, some vb =>
      if c = '=' then
        if d = '=' ∧ rest = [] ∧ vb % 16 = 0 then some [va * 4 + vb / 16]
        else none
      else
        match b64Val c with
        | some vc =>
          if d = '=' then
            if rest = [] ∧ vc % 4 = 0 then
              some [va * 4 + vb / 16, (vb % 16) * 16 + vc / 4]
            else none
          else
            match b64Val d with
            | some vd =>
              (base64Decode rest).map
                (fun tl => (va * 4 + vb / 16) :: ((vb % 16) * 16 + vc / 4) ::
                           ((vc % 4) * 64 + vd) :: tl)
            | none => none
        | none => none
    | _, _ => none
  | _ => none

/-! ### UTF-8 (strict validation, as `String::from_utf8`) -/

def isUtf8Cont (b : Nat) : Bool := 128 ≤ b ∧ b < 192

/-- Decode a byte list as UTF-8 text; `none` on any ill-formed sequence
(continuation errors, overlong forms, surrogates, out-of-range points). -/
def utf8DecodeChars : List Nat → Option (List Char)
  | [] => some []
  | b :: rest =>
    if b < 128 then
      (utf8DecodeChars rest).map (fun tl => Char.ofNat b :: tl)
    else if b < 194 then none
    else if b < 224 then
      match rest with
      | c1 :: rest₂ =>
        if isUtf8Cont c1 then
          (utf8DecodeChars rest₂).map
            (fun tl => Char.ofNat ((b - 192) * 64 + (c1 - 128)) :: tl)
        else none
      | [] => none
    else if b < 240 then
      match rest with
      | c1 :: c2 :: rest₃ =>
        if isUtf8Cont c1 ∧ isUtf8Cont c2 then
          let cp := (b - 224) * 4096 + (c1 - 128) * 64 + (c2 - 128)
          if 2048 ≤ cp ∧ ¬ (55296 ≤ cp ∧ cp ≤ 57343) then
            (utf8DecodeChars rest₃).map (fun tl => Char.ofNat cp :: tl)
          else none
        else none
      | _ => none
    else if b < 245 then
      match rest with
      | c1 :: c2 :: c3 :: rest₄ =>
        if isUtf8Cont c1 ∧ isUtf8Cont c2 ∧ isUtf8Cont c3 then
          let cp := (b - 240) * 262144 + (c1 - 128) * 4096 + (c2 - 128) * 64 + (c3 - 128)
          if 65536 ≤ cp ∧ cp ≤ 1114111 then
            (utf8DecodeChars rest₄).map (fun tl => Char.ofNat cp :: tl)
          else none
        else none
      | _ => none
    else none

def utf8Decode (bytes : List Nat) : Option String :=
  (utf8DecodeChars bytes).map String.mk

/-- UTF-8 encoding of one character. -/
def utf8EncodeChar (c : Char) : List Nat :=
  let n := c.toNat
  if n < 128 then [n]
  else if n < 2048 then [192 + n / 64, 128 + n % 64]
  else if n < 65536 then [224 + n / 4096, 128 + n / 64 % 64, 128 + n % 64]
  else [240 + n / 262144, 128 + n / 4096 % 64, 128 + n / 64 % 64, 128 + n % 64]

def strToBytes (s : String) : List Nat :=
  (s.toList.map utf8EncodeChar).flatten

/-! ### The data-URL prefix of `write`

`write` (commands.rs:168-177) matches `content` against the regex
`^data:((.*?)(;charset=.*?)?)(;base64)?,` and strips the matched prefix.
Because `.` does not match a newline and every group before the final `,`
is optional or lazy, the regex matches exactly when the string starts
with `data:` and a comma follows before any newline, and the leftmost
match always ends at that first comma. -/

/-- The payload after the first comma; `none` when a newline intervenes
or there is no comma. -/
def afterFirstComma : List Char → Option (List Char)
  | [] => none
  | ',' :: rest => some rest
  | '\n' :: _ => none
  | _ :: rest => afterFirstComma rest

/-- Rust `some payload` exactly when the data-URL regex matches `s`; the
payload is `s` with the matched prefix removed (`re.replace(&content, "")`). -/
def dataUrlStrip (s : String) : Option String :=
  if strStartsWith s "data:" then
    (afterFirstComma (s.toList.drop 5)).map String.mk
  else none

/-- The content transformation of `write`: on a regex match the stripped
payload is unconditionally base64-decoded and re-read as UTF-8, with both
`unwrap`s modelled as `none` (a panic); otherwise the content is kept
verbatim. -/
def writeContentTransform (content : String) : Option String :=
  match dataUrlStrip content with
  | none => some content
  | some payload => (base64Decode payload.toList).bind utf8Decode

/-! ### Operation handlers (commands.rs) -/

def NAME : String := "tridactyl"
def CONFIG : String := "tridactylrc"
def VERSION : String := "0.5.0"

/-- Rust `SUCCESS_CODE: u8 = 0`, as the JSON number it is serialized to. -/
def SUCCESS_CODE : Int := 0

/-- Rust `std::path::MAIN_SEPARATOR` on the Unix target. -/
def MAIN_SEPARATOR : String := "/"

/-- The first of the two config-file candidates:
`dirs::config_dir().join(NAME).join(CONFIG)`. -/
def candidate1 (w : World) : String :=
  pathJoin (pathJoin w.configDir NAME) CONFIG

/-- The second candidate: `dirs::home_dir().join(".tridactylrc")`. -/
def candidate2 (w : World) : String :=
  pathJoin w.home ("." ++ CONFIG)

/-- Rust `get_config_file` (commands.rs:77-90): the first existing candidate. -/
def get_config_file (w : World) : Option String :=
  if fsExists w.fs (candidate1 w) then some (candidate1 w)
  else if fsExists w.fs (candidate2 w) then some (candidate2 w)
  else none

/-- Rust `version` (commands.rs:92-98). -/
def version : JValue :=
  .obj [("cmd", .str "version"), ("code", .num SUCCESS_CODE), ("version", .str VERSION)]

/-- Rust `get_config` (commands.rs:100-122). -/
def get_config (w : World) : JValue :=
  match get_config_file w with
  | some path =>
    match readToString w.fs path with
    | none => .obj [("cmd", .str "getconfig"), ("code", .num 2)]
    | some content =>
      .obj [("cmd", .str "getconfig"), ("code", .num SUCCESS_CODE), ("content", .str content)]
  | none => .obj [("cmd", .str "getconfig"), ("code", .num 1)]

/-- Rust `get_config_path` (commands.rs:124-141).  The `canonicalize().unwrap()`
is modelled by the `none` branch. -/
def get_config_path (w : World) : Option JValue :=
  match get_config_file w with
  | some path =>
    match canonicalizeFs w.fs path with
    | some cp =>
      some (.obj [("cmd", .str "getconfigpath"), ("code", .num SUCCESS_CODE), ("content", .str cp)])
    | none => none
  | none => some (.obj [("cmd", .str "getconfigpath"), ("code", .num 1)])

/-- Rust `read` (commands.rs:143-166). -/
def readCmd (fs : Fs) (envm : List (String × String)) (home path : String) : JValue :=
  let p := expandPath envm home path
  match readToString fs p with
  | some value => .obj [("cmd", .str "read"), ("code", .num SUCCESS_CODE), ("content", .str value)]
  | none => .obj [("cmd", .str "read"), ("code", .num 2), ("content", .str "")]

/-- Rust `write` (commands.rs:168-196).  The path is used literally (no
expansion).  A `none` result models the panic of the base64/UTF-8
`unwrap`s on a matched data URL with an undecodable payload. -/
def writeCmd (fs : Fs) (path content : String) : Option (JValue × Fs) :=
  match writeContentTransform content with
  | none => none
  | some content =>
    match createFile fs path with
    | some fs₁ =>
      some (.obj [("cmd", .str "write"), ("code", .num SUCCESS_CODE)], writeAllFile fs₁ path content)
    | none => some (.obj [("cmd", .str "write"), ("code", .num 2)], fs)

/-- Rust `write_rc` (commands.rs:198-223). -/
def write_rc (fs : Fs) (envm : List (String × String)) (home path content : String)
    (force : Bool) : JValue × Fs :=
  let p := expandPath envm home path
  if (!fsExists fs p || force) then
    match createFile fs p with
    | some fs₁ =>
      (.obj [("cmd", .str "writerc"), ("code", .num SUCCESS_CODE)], writeAllFile fs₁ p content)
    | none => (.obj [("cmd", .str "writerc"), ("code", .num 2)], fs)
  else (.obj [("cmd", .str "writerc"), ("code", .num 1)], fs)

/-- Rust `create_directory` (commands.rs:225-240). -/
def create_directory (fs : Fs) (envm : List (String × String)) (home path : String) :
    JValue × Fs :=
  let p := expandPath envm home path
  match createDirAll fs p with
  | none => (.obj [("cmd", .str "mkdir"), ("code", .num 2)], fs)
  | some fs' => (.obj [("cmd", .str "mkdir"), ("code", .num SUCCESS_CODE)], fs')

/-- The child names `read_dir` yields for a directory. -/
def dirChildren (fs : Fs) (p : String) : List String :=
  ((fs.files.map Prod.fst) ++ fs.dirs).filterMap
    (fun q => if parentPath q = some p ∧ q ≠ p then fileName q else none)

/-- Rust `Path::read_dir`, failing on anything that is not a directory. -/
def readDir (fs : Fs) (p : String) : Option (List String) :=
  if fs.dirs.contains p then some (dirChildren fs p) else none

/-- Rust `read_directory` (commands.rs:242-268): only the tilde is expanded;
a non-directory path is replaced by its parent (or `.`). -/
def read_directory (fs : Fs) (home path : String) : JValue :=
  let p := expand_tilde home path
  let is_directory := fs.dirs.contains p
  let p := if !is_directory then (parentPath p).getD "." else p
  let files := match readDir fs p with
    | some entries => entries
    | none => []
  .obj [("cmd", .str "list_dir"), ("isDir", .bool is_directory),
        ("files", .arr (files.map .str)), ("sep", .str MAIN_SEPARATOR)]

/-- Rust `temp` (commands.rs:270-290).  `tempfile::Builder` creates a file
named `prefix ++ random ++ ".txt"` in the temp directory; the handler
writes the content and returns the path, but the `NamedTempFile` handle
is dropped when the handler returns, which removes the file again — the
net filesystem effect of a successful `temp` is none. -/
def tempCmd (w : World) (pfxArg _content : String) : Option (JValue × Fs) :=
  let pfx := "tmp_" ++ sanitize_file_name pfxArg ++ "_"
  if w.tempOk then
    let path := pathJoin w.tempDir (pfx ++ w.tempRand ++ ".txt")
    some (.obj [("cmd", .str "temp"), ("code", .num SUCCESS_CODE), ("content", .str path)], w.fs)
  else none

/-- The move phase of `move_file` (commands.rs:296-309): the `can_move`
test and the rename.  `none` models the panic of
`from.file_name().unwrap()`, which is reached whenever the destination
exists and the source has no base file name. -/
def movePhase (fs : Fs) (f t : String) (overwrite : Bool) : Option (Int × Fs) :=
  let canMoveOpt : Option Bool :=
    if overwrite then some true
    else if !fsExists fs t then some true
    else
      match fileName f with
      | none => none
      | some n => some (fsExists fs (pathJoin t n))
  match canMoveOpt with
  | none => none
  | some can_move =>
  if can_move then
    if fsExists fs t then
      match fileName f with
      | none => none
      | some n =>
        match renameFs fs f (pathJoin t n) with
        | some fs' => some (SUCCESS_CODE, fs')
        | none => some (2, fs)
    else
      match renameFs fs f t with
      | some fs' => some (SUCCESS_CODE, fs')
      | none => some (2, fs)
  else some (1, fs)

/-- Rust `move_file` (commands.rs:292-319).  When `cleanup` is set the source
path is removed unconditionally after the move phase; a failing removal
is `std::fs::remove_file(from).unwrap()` — a panic, modelled as `none`. -/
def move_file (fs : Fs) (envm : List (String × String)) (home from_ to_ : String)
    (overwrite cleanup : Bool) : Option (JValue × Fs) :=
  let f := expandPath envm home from_
  let t := expandPath envm home to_
  match movePhase fs f t overwrite with
  | none => none
  | some (code, fs₁) =>
    match (if cleanup then removeFile fs₁ f else some fs₁) with
    | none => none
    | some fs₂ => some (.obj [("cmd", .str "move"), ("code", .num code)], fs₂)

/-- Rust `env` (commands.rs:321-337). -/
def envCmd (envm : List (String × String)) (key : String) : JValue :=
  match lookupEnv envm key with
  | some value => .obj [("cmd", .str "env"), ("content", .str value)]
  | none => .obj [("cmd", .str "env")]

/-- Rust `get_process_id` (commands.rs:339-347): note it reports the process's
own id under the name `ppid`. -/
def get_process_id (w : World) : JValue :=
  .obj [("cmd", .str "ppid"), ("content", .num w.pid)]

/-- Model of `std::process::Child` as `run` sees it: the `stdin`/`stdout`
fields are `Some` only when the corresponding stream was configured with
`Stdio::piped()`. -/
structure Child where
  stdinPipe : Option Unit
  stdoutPipe : Option String
  waitResult : Option (Option Int)

/-- Rust `Command::new("sh").arg("-c").arg(command).spawn()` as `run` performs
it (commands.rs:353-356): no `Stdio` configuration is given, so the
child inherits the parent's stdin/stdout and the handles are `None`. -/
def spawn_sh (w : World) : Option Child :=
  if w.spawnOk then
    some { stdinPipe := none, stdoutPipe := none, waitResult := w.waitResult }
  else none

/-- Rust `BufRead::lines` over the captured byte buffer: split at `\n`,
dropping the terminator and a trailing `\r`. -/
def rustLines (s : String) : List String :=
  if s = "" then []
  else
    let parts := splitOnChar '\n' s.toList
    let parts := if parts.getLast? = some [] then parts.dropLast else parts
    parts.map (fun l =>
      String.mk (if l.getLast? = some '\x0d' then l.dropLast else l))

/-- Rust `run` (commands.rs:349-395). -/
def runCmd (w : World) (_command : String) (_content : Option String) : JValue :=
  let code : Int := SUCCESS_CODE
  match spawn_sh w with
  | none => .obj [("cmd", .str "run"), ("code", .num code), ("result", .str "")]
  | some child =>
    -- `content` would be written to `child.stdin` only when a handle was
    -- captured; `child.stdin` is always `None` here.
    let response := match child.stdoutPipe with
      | some buffer => String.join ((rustLines buffer).map (fun l => l ++ "\n"))
      | none => ""
    let code := match child.waitResult with
      | some (some c) => Int.emod c 256   -- `status.code() as u8`
      | some none => code                 -- `unwrap_or(code as i32)`
      | none => code                      -- `wait` failed
    .obj [("cmd", .str "run"), ("code", .num code), ("result", .str response)]

/-- Rust `run_async` (commands.rs:397-420).  `arguments.next().unwrap()`
panics when the command contains no token; the spawn result itself is
only logged. -/
def run_async (command : String) : Option JValue :=
  match splitWhitespace command with
  | [] => none
  | _ :: _ => some (.obj [("cmd", .str "run_async")])

/-! ### The dispatcher (main.rs:19-161) -/

def errorResp : JValue :=
  .obj [("cmd", .str "error"), ("code", .num 1), ("error", .str "Unhandled message")]

/-- The body of the `match command_name` in `handle_command`, given the
decoded object `map`. -/
def dispatch (w : World) (map : List (String × JValue)) (name : String) :
    Option (JValue × Fs) :=
  match name with
  | "env" =>
    match jLookup map "var" with
    | none => some (errorResp, w.fs)
    | some key =>
      match asStr key with
      | none => some (errorResp, w.fs)
      | some key => some (envCmd w.envm key, w.fs)
  | "version" => some (version, w.fs)
  | "getconfig" => some (get_config w, w.fs)
  | "getconfigpath" => (get_config_path w).map (fun v => (v, w.fs))
  | "read" => some (readCmd w.fs w.envm w.home (getStrD map "file"), w.fs)
  | "write" => writeCmd w.fs (getStrD map "file") (getStrD map "content")
  | "writerc" =>
    some (write_rc w.fs w.envm w.home (getStrD map "file") (getStrD map "content")
      (getBoolD map "force"))
  | "move" =>
    move_file w.fs w.envm w.home (getStrD map "from") (getStrD map "to")
      (getBoolD map "overwrite") (getBoolD map "cleanup")
  | "mkdir" => some (create_directory w.fs w.envm w.home (getStrD map "dir"))
  | "list_dir" => some (read_directory w.fs w.home (getStrD map "path"), w.fs)
  | "temp" =>
    match tempCmd w (getStrD map "prefix") (getStrD map "content") with
    | some result => some result
    | none => some (errorResp, w.fs)
  | "run" =>
    let content := match jLookup map "content" with
      | some value => asStr value
      | none => none
    some (runCmd w (getStrD map "command") content, w.fs)
  | "run_async" => (run_async (getStrD map "command")).map (fun v => (v, w.fs))
  | "ppid" => some (get_process_id w, w.fs)
  | _ => some (errorResp, w.fs)

/-- Rust `handle_command` (main.rs:19-161).  `none` means the handler panicked
and the process died without a response. -/
def handle_command (w : World) (command : JValue) : Option (JValue × Fs) :=
  match command with
  | .obj map =>
    match jLookup map "cmd" with
    | some name => dispatch w map (strOr name)
    | none => some (errorResp, w.fs)
  | _ => some (errorResp, w.fs)

/-- The name the dispatcher would match on for an object, when `cmd` is
present (`""` when it is present but not a string). -/
def dispatchName (map : List (String × JValue)) : Option String :=
  (jLookup map "cmd").map strOr

/-! ### Framing layer (main.rs:163-229) -/

/-- Rust `u32::from_ne_bytes` on the little-endian target. -/
def u32FromNeBytes (b : List Nat) : Nat :=
  match b with
  | [b0, b1, b2, b3] => b0 % 256 + b1 % 256 * 256 + b2 % 256 * 65536 + b3 % 256 * 16777216
  | _ => 0

/-- Rust `(n as u32).to_ne_bytes()` (little-endian). -/
def u32ToNeBytes (n : Nat) : List Nat :=
  [n % 256, n / 256 % 256, n / 65536 % 256, n / 16777216 % 256]

/-- Rust `read_exact`: consume exactly `n` bytes of the stream; `none` models
the `unwrap` panic when the stream ends first. -/
def readExact : Nat → List Nat → Option (List Nat × List Nat)
  | 0, bytes => some ([], bytes)
  | _ + 1, [] => none
  | n + 1, b :: bytes => (readExact n bytes).map (fun br => (b :: br.1, br.2))

/-- Rust `get_message` (main.rs:163-181).  The result is `none` on a panic
(short read, bad UTF-8, bad JSON — all `unwrap`ed); `some (none, rest)`
on a zero-length frame; otherwise the decoded message and the remaining
input.  JSON parsing (`serde_json::from_str`) is the oracle `parse`. -/
def get_message (parse : String → Option JValue) (input : List Nat) :
    Option (Option JValue × List Nat) := do
  let (header, rest) ← readExact 4 input
  let length := u32FromNeBytes header
  if length = 0 then
    some (none, rest)
  else do
    let (body, rest₂) ← readExact length rest
    let s ← utf8Decode body
    let j ← parse s
    some (some j, rest₂)

/-- JSON string escaping as `serde_json` performs it. -/
def escapeJsonChar (c : Char) : List Char :=
  if c = '"' then ['\\', '"']
  else if c = '\\' then ['\\', '\\']
  else if c = '\n' then ['\\', 'n']
  else if c = '\t' then ['\\', 't']
  else if c = '\r' then ['\\', 'r']
  else if c.toNat = 8 then ['\\', 'b']
  else if c.toNat = 12 then ['\\', 'f']
  else if c.toNat < 32 then
    let hex := fun (n : Nat) => if n < 10 then Char.ofNat (48 + n) else Char.ofNat (87 + n)
    ['\\', 'u', '0', '0', hex (c.toNat / 16), hex (c.toNat % 16)]
  else [c]

def escapeJson (s : String) : String :=
  String.mk ((s.toList.map escapeJsonChar).flatten)

mutual

/-- Compact serialization, `serde_json::Value::to_string`. -/
def jsonSerialize : JValue → String
  | .null => "null"
  | .bool b => if b then "true" else "false"
  | .num n => toString n
  | .str s => "\"" ++ escapeJson s ++ "\""
  | .arr elems => "[" ++ serializeElems elems ++ "]"
  | .obj fields => "\x7b" ++ serializeFields fields ++ "\x7d"

def serializeElems : List JValue → String
  | [] => ""
  | [v] => jsonSerialize v
  | v :: rest => jsonSerialize v ++ "," ++ serializeElems rest

def serializeFields : List (String × JValue) → String
  | [] => ""
  | [(k, v)] => "\"" ++ escapeJson k ++ "\":" ++ jsonSerialize v
  | (k, v) :: rest =>
    "\"" ++ escapeJson k ++ "\":" ++ jsonSerialize v ++ "," ++ serializeFields rest

end

/-- The bytes `send_message` (main.rs:183-194) puts on stdout for a
response text: the byte length as a native-endian `u32`, then the UTF-8
bytes. -/
def frameBytes (response : String) : List Nat :=
  u32ToNeBytes (response.utf8ByteSize % 4294967296) ++ strToBytes response

/-- One whole state of the message loop. -/
structure LoopState where
  input : List Nat
  output : List Nat
  world : World

/-- One iteration of the `loop` in `main` (main.rs:224-229): a framed
read, and — when a message was decoded — dispatch plus a framed write.
`none` means the process died (a panic in `get_message`,
`handle_command` or the stdout writes; the latter are modelled as always
succeeding). -/
def loopStep (parse : String → Option JValue) (st : LoopState) : Option LoopState := do
  let (msg, input') ← get_message parse st.input
  match msg with
  | none => some { st with input := input' }
  | some json => do
    let (resp, fs') ← handle_command st.world json
    some { input := input',
           output := st.output ++ frameBytes (jsonSerialize resp),
           world := { st.world with fs := fs' } }

/-! ### Concrete states used to evaluate the handlers -/

/-- The last path component, as a string. -/
def basename (p : String) : String :=
  match fileName p with
  | some n => n
  | none => ""

def sampleFs : Fs := { files := [("/s", "data")], dirs := ["/d"], locked := [] }

def sampleWorld : World :=
  { fs := sampleFs, envm := [], home := "/home/user", configDir := "/home/user/.config",
    tempDir := "/tmp", tempRand := "aB3xQ9", tempOk := true, pid := 42,
    spawnOk := true, waitResult := some (some 0) }

def emptyFs : Fs := { files := [], dirs := [], locked := [] }

/-- A filesystem with an ordinary file `/rc` and an unwritable file `/ro`. -/
def rcFs : Fs := { files := [("/rc", "old"), ("/ro", "x")], dirs := [], locked := ["/ro"] }

/-- A world whose first config candidate `/cfg/tridactyl/tridactylrc`
exists and is readable. -/
def configWorld : World :=
  { sampleWorld with
    fs := { files := [("/cfg/tridactyl/tridactylrc", "set x")], dirs := [], locked := [] },
    configDir := "/cfg" }

/-! ### Helper lemmas -/

theorem get_config_file_exists (w : World) (p : String)
    (h : get_config_file w = some p) : fsExists w.fs p = true := by
  unfold get_config_file at h
  split at h
  · cases h; assumption
  · split at h
    · cases h; assumption
    · cases h

theorem get_config_path_isSome (w : World) : ∃ v, get_config_path w = some v := by
  unfold get_config_path canonicalizeFs
  rcases hf : get_config_file w with _ | p
  · exact ⟨_, rfl⟩
  · simp only [get_config_file_exists w p hf, if_true]
    exact ⟨_, rfl⟩

theorem writeCmd_none_iff (fs : Fs) (path content : String) :
    writeCmd fs path content = none ↔ writeContentTransform content = none := by
  unfold writeCmd
  rcases writeContentTransform content with _ | c
  · simp
  · simp only
    cases createFile fs path <;> simp

theorem run_async_none_iff (command : String) :
    run_async command = none ↔ splitWhitespace command = [] := by
  unfold run_async
  cases h : splitWhitespace command <;> simp

/-! Shape lemmas: every handler response is an object whose first field is
`cmd` with the echoed operation name. -/

theorem envCmd_shape (e : List (String × String)) (k : String) :
    ∃ r, envCmd e k = .obj (("cmd", .str "env") :: r) := by
  unfold envCmd
  cases lookupEnv e k <;> exact ⟨_, rfl⟩

theorem get_config_shape (w : World) :
    ∃ r, get_config w = .obj (("cmd", .str "getconfig") :: r) := by
  unfold get_config
  split <;> (try split) <;> exact ⟨_, rfl⟩

theorem get_config_path_shape (w : World) (v : JValue)
    (h : get_config_path w = some v) :
    ∃ r, v = .obj (("cmd", .str "getconfigpath") :: r) := by
  unfold get_config_path at h
  split at h
  · split at h
    · exact ⟨_, (Option.some.inj h).symm⟩
    · cases h
  · exact ⟨_, (Option.some.inj h).symm⟩

theorem readCmd_shape (fs : Fs) (e : List (String × String)) (home path : String) :
    ∃ r, readCmd fs e home path = .obj (("cmd", .str "read") :: r) := by
  unfold readCmd
  dsimp only
  split <;> exact ⟨_, rfl⟩

theorem writeCmd_shape (fs : Fs) (path content : String) (v : JValue) (fs' : Fs)
    (h : writeCmd fs path content = some (v, fs')) :
    ∃ r, v = .obj (("cmd", .str "write") :: r) := by
  unfold writeCmd at h
  split at h
  · cases h
  · split at h <;>
      exact ⟨_, congrArg Prod.fst (Option.some.inj h) |>.symm⟩

theorem write_rc_shape (fs : Fs) (e : List (String × String)) (home path content : String)
    (force : Bool) :
    ∃ r, (write_rc fs e home path content force).1 = .obj (("cmd", .str "writerc") :: r) := by
  unfold write_rc
  dsimp only
  split <;> (try split) <;> exact ⟨_, rfl⟩

theorem create_directory_shape (fs : Fs) (e : List (String × String)) (home path : String) :
    ∃ r, (create_directory fs e home path).1 = .obj (("cmd", .str "mkdir") :: r) := by
  unfold create_directory
  dsimp only
  split <;> exact ⟨_, rfl⟩

theorem read_directory_shape (fs : Fs) (home path : String) :
    ∃ r, read_directory fs home path = .obj (("cmd", .str "list_dir") :: r) :=
  ⟨_, rfl⟩

theorem tempCmd_shape (w : World) (p c : String) (v : JValue) (fs' : Fs)
    (h : tempCmd w p c = some (v, fs')) :
    ∃ r, v = .obj (("cmd", .str "temp") :: r) := by
  unfold tempCmd at h
  split at h
  · exact ⟨_, congrArg Prod.fst (Option.some.inj h) |>.symm⟩
  · cases h

theorem move_file_shape (fs : Fs) (e : List (String × String)) (home f t : String)
    (ov cl : Bool) (v : JValue) (fs' : Fs)
    (h : move_file fs e home f t ov cl = some (v, fs')) :
    ∃ r, v = .obj (("cmd", .str "move") :: r) := by
  unfold move_file at h
  dsimp only at h
  rcases hp : movePhase fs (expandPath e home f) (expandPath e home t) ov with _ | ⟨code, fs₁⟩
  · simp only [hp] at h
    exact Option.noConfusion h
  · simp only [hp] at h
    rcases hc : (if cl then removeFile fs₁ (expandPath e home f) else some fs₁) with _ | fs₂
    · simp only [hc] at h
      exact Option.noConfusion h
    · simp only [hc] at h
      exact ⟨_, congrArg Prod.fst (Option.some.inj h.symm)⟩

theorem runCmd_shape (w : World) (c : String) (ct : Option String) :
    ∃ r, runCmd w c ct = .obj (("cmd", .str "run") :: r) := by
  unfold runCmd
  cases spawn_sh w <;> exact ⟨_, rfl⟩

theorem run_async_shape (c : String) (v : JValue) (h : run_async c = some v) :
    v = .obj [("cmd", .str "run_async")] := by
  unfold run_async at h
  split at h
  · cases h
  · exact (Option.some.inj h).symm

theorem mem_replaceDotDot (l : List Char) (c : Char) (h : c ∈ replaceDotDot l) : c ∈ l := by
  induction l using replaceDotDot.induct with
  | case1 rest ih =>
    rw [replaceDotDot] at h
    rcases List.mem_cons.mp h with h1 | h1
    · simp [h1]
    · simp [ih h1]
  | case2 a rest hne ih =>
    rw [replaceDotDot] at h
    · rcases List.mem_cons.mp h with h1 | h1
      · simp [h1]
      · simp [ih h1]
    · exact hne
  | case3 =>
    simp [replaceDotDot] at h

theorem lookupFile_any (fs : Fs) (p c : String)
    (h : lookupFile fs p = some c) : fs.files.any (fun kv => kv.1 = p) = true := by
  unfold lookupFile at h
  rcases hf : fs.files.find? (fun kv => kv.1 = p) with _ | kv
  · rw [hf] at h; cases h
  · have hmem := List.mem_of_find?_eq_some hf
    have hp := List.find?_some hf
    simp only [List.any_eq_true]
    exact ⟨kv, hmem, hp⟩

theorem lookupFile_fsExists (fs : Fs) (p c : String)
    (h : lookupFile fs p = some c) : fsExists fs p = true := by
  unfold fsExists
  rw [lookupFile_any fs p c h]
  rfl

/-! ### The claims -/

/-- Claim C9: a frame whose length field is zero produces no message and no
response bytes, does not terminate the process, and the loop goes on to
read the next frame. -/
theorem zero_frame_skips_iteration (parse : String → Option JValue)
    (rest out : List Nat) (w : World) :
    loopStep parse { input := 0 :: 0 :: 0 :: 0 :: rest, output := out, world := w } =
      some { input := rest, output := out, world := w } := rfl

/-- Claim C2 (the code at the claimed scenario): for
`{"cmd":"run","command":"echo hi"}`, with the spawn succeeding and the
child exiting with status 0, the handler returns
`{"cmd":"run","code":0,"result":""}` — the `result` field is empty, not
`"hi\n"`, because `run` spawns the shell without `Stdio::piped()` and so
never captures the child's stdout. -/
theorem run_echo_hi_result_empty :
    handle_command sampleWorld (.obj [("cmd", .str "run"), ("command", .str "echo hi")]) =
      some (.obj [("cmd", .str "run"), ("code", .num 0), ("result", .str "")], sampleFs) := rfl

/-- Claim C4: with `cleanup = true`, whatever code the move phase produced
(including the declined `code = 1`), removal of the expanded source path
is attempted afterwards; if the removal fails the handler yields no
response at all (the `unwrap` panic) instead of an error response. -/
theorem move_cleanup_unconditional (fs : Fs) (e : List (String × String))
    (home from_ to_ : String) (ov : Bool) (code : Int) (fs₁ : Fs)
    (h : movePhase fs (expandPath e home from_) (expandPath e home to_) ov = some (code, fs₁)) :
    move_file fs e home from_ to_ ov true =
      match removeFile fs₁ (expandPath e home from_) with
      | some fs₂ => some (.obj [("cmd", .str "move"), ("code", .num code)], fs₂)
      | none => none := by
  unfold move_file
  dsimp only
  simp only [h]
  rcases removeFile fs₁ (expandPath e home from_) with _ | fs₂ <;> rfl

/-- Witness for C4: a declined move (`code = 1`: destination `/d` exists
and `/d/s` does not) with `cleanup = true` still deletes the source file
`/s`. -/
theorem move_cleanup_unconditional_witness :
    move_file sampleFs [] "/home/user" "/s" "/d" false true =
      some (.obj [("cmd", .str "move"), ("code", .num 1)],
        { files := [], dirs := ["/d"], locked := [] }) :=
  (move_cleanup_unconditional sampleFs [] "/home/user" "/s" "/d" false 1 sampleFs rfl).trans rfl

/-- Claim C6 counterexample: a `move` with `overwrite = false`,
`cleanup = false`, an existing destination `/d` and the empty source path
(whose base file name does not exist, so no file of that name is in the
destination) does not return code 1 — the handler panics in
`from.file_name().unwrap()` and produces no response. -/
theorem move_decline_empty_source_panics :
    move_file sampleFs [] "/home/user" "" "/d" false false = none := rfl

/-- Claim C6 (amended): when additionally the expanded source path has a
base file name, a `move` with `overwrite = false`, `cleanup = false` and
an existing destination that does not contain a file of that base name
returns code 1, attempts no rename, and leaves the filesystem (both
files) unchanged. -/
theorem move_decline_code1 (fs : Fs) (e : List (String × String))
    (home from_ to_ n : String)
    (ht : fsExists fs (expandPath e home to_) = true)
    (hn : fileName (expandPath e home from_) = some n)
    (hj : fsExists fs (pathJoin (expandPath e home to_) n) = false) :
    move_file fs e home from_ to_ false false =
      some (.obj [("cmd", .str "move"), ("code", .num 1)], fs) := by
  unfold move_file movePhase
  simp [ht, hn, hj]

/-- Witness for C6 (amended): source `/s`, destination directory `/d`
with no `/d/s`. -/
theorem move_decline_code1_witness :
    move_file sampleFs [] "/home/user" "/s" "/d" false false =
      some (.obj [("cmd", .str "move"), ("code", .num 1)], sampleFs) :=
  move_decline_code1 sampleFs [] "/home/user" "/s" "/d" "s" rfl rfl rfl

/-- Claim C7: config resolution checks exactly the two candidate paths in
fixed order and the first existing one wins; a readable winner gives
code 0 with the contents, an unreadable winner gives code 2, and if
neither candidate exists the result is code 1. -/
theorem getconfig_resolution (w : World) :
    (fsExists w.fs (candidate1 w) = true → get_config_file w = some (candidate1 w)) ∧
    (fsExists w.fs (candidate1 w) = false → fsExists w.fs (candidate2 w) = true →
      get_config_file w = some (candidate2 w)) ∧
    (fsExists w.fs (candidate1 w) = false → fsExists w.fs (candidate2 w) = false →
      get_config w = .obj [("cmd", .str "getconfig"), ("code", .num 1)]) ∧
    (∀ p content, get_config_file w = some p → readToString w.fs p = some content →
      get_config w = .obj [("cmd", .str "getconfig"), ("code", .num 0),
        ("content", .str content)]) ∧
    (∀ p, get_config_file w = some p → readToString w.fs p = none →
      get_config w = .obj [("cmd", .str "getconfig"), ("code", .num 2)]) := by
  refine ⟨?_, ?_, ?_, ?_, ?_⟩
  · intro h1
    unfold get_config_file
    simp [h1]
  · intro h1 h2
    unfold get_config_file
    simp [h1, h2]
  · intro h1 h2
    unfold get_config get_config_file
    simp [h1, h2]
  · intro p content hp hr
    unfold get_config
    simp only [hp, hr]
    rfl
  · intro p hp hr
    unfold get_config
    simp only [hp, hr]

/-- Witness for C7: the first candidate `/cfg/tridactyl/tridactylrc`
exists and is readable. -/
theorem getconfig_resolution_witness :
    get_config configWorld =
      .obj [("cmd", .str "getconfig"), ("code", .num 0), ("content", .str "set x")] :=
  (getconfig_resolution configWorld).2.2.2.1 (candidate1 configWorld) "set x"
    ((getconfig_resolution configWorld).1 rfl) rfl

/-- Claim C5: `writerc` on an existing target file: with `force = false` it
returns code 1 and leaves the filesystem unchanged; with `force = true`
it overwrites the file with the content and returns code 0 when the file
can be created, and returns code 2 leaving everything unchanged when
creation fails. -/
theorem writerc_existing_guard (fs : Fs) (e : List (String × String))
    (home path content c₀ : String)
    (hf : lookupFile fs (expandPath e home path) = some c₀) :
    (write_rc fs e home path content false =
      (.obj [("cmd", .str "writerc"), ("code", .num 1)], fs)) ∧
    (createFile fs (expandPath e home path) = none →
      write_rc fs e home path content true =
        (.obj [("cmd", .str "writerc"), ("code", .num 2)], fs)) ∧
    (∀ fs₁, createFile fs (expandPath e home path) = some fs₁ →
      write_rc fs e home path content true =
        (.obj [("cmd", .str "writerc"), ("code", .num 0)],
         writeAllFile fs₁ (expandPath e home path) content) ∧
      lookupFile (writeAllFile fs₁ (expandPath e home path) content)
        (expandPath e home path) = some content) := by
  have hex := lookupFile_fsExists fs _ c₀ hf
  refine ⟨?_, ?_, ?_⟩
  · unfold write_rc
    simp [hex]
  · intro hc
    unfold write_rc
    simp [hex, hc]
  · intro fs₁ hc
    constructor
    · unfold write_rc
      simp only [hex, Bool.not_true, Bool.false_or, if_true, hc]
      rfl
    · unfold lookupFile writeAllFile insertFile
      simp [List.find?]

/-- Witness for C5 on `rcFs`: `/rc` exists (`force = false` → code 1 and
no change; `force = true` → overwritten with code 0); `/ro` exists but
cannot be opened for writing (`force = true` → code 2, unchanged). -/
theorem writerc_existing_guard_witness :
    (write_rc rcFs [] "/home/user" "/rc" "new" false =
       (.obj [("cmd", .str "writerc"), ("code", .num 1)], rcFs)) ∧
    (write_rc rcFs [] "/home/user" "/rc" "new" true =
       (.obj [("cmd", .str "writerc"), ("code", .num 0)],
        { files := [("/rc", "new"), ("/ro", "x")], dirs := [], locked := ["/ro"] })) ∧
    (write_rc rcFs [] "/home/user" "/ro" "boom" true =
       (.obj [("cmd", .str "writerc"), ("code", .num 2)], rcFs)) := by
  have h1 := writerc_existing_guard rcFs [] "/home/user" "/rc" "new" "old" rfl
  have h2 := writerc_existing_guard rcFs [] "/home/user" "/ro" "boom" "x" rfl
  exact ⟨h1.1, ((h1.2.2 _ rfl).1).trans rfl, h2.2.1 rfl⟩

/-- Claim C3 counterexample: `write` with content `data:text/plain,aGV5`
— a data URL without the `;base64` marker — is not written verbatim:
the code strips the prefix and base64-decodes the payload anyway, so the
file receives `hey`. -/
theorem write_data_url_without_marker_not_verbatim :
    writeCmd emptyFs "f" "data:text/plain,aGV5" =
      some (.obj [("cmd", .str "write"), ("code", .num 0)],
        { files := [("f", "hey")], dirs := [], locked := [] }) ∧
    ("hey" : String) ≠ "data:text/plain,aGV5" :=
  ⟨rfl, by decide⟩

/-- Claim C3 (amended): when `content` matches the data-URL pattern the
prefix up to the first comma is stripped and the payload is
base64-decoded *unconditionally* — whether or not `;base64` is present —
and the handler panics (no response) when the payload is not valid
base64 encoding UTF-8 text; only content that does not match the pattern
is written verbatim. -/
theorem write_data_url_spec (fs : Fs) (path content : String) :
    (dataUrlStrip content = none →
      ∀ fs₁, createFile fs path = some fs₁ →
        writeCmd fs path content =
          some (.obj [("cmd", .str "write"), ("code", .num 0)],
            writeAllFile fs₁ path content)) ∧
    (∀ payload d, dataUrlStrip content = some payload →
      (base64Decode payload.toList).bind utf8Decode = some d →
      ∀ fs₁, createFile fs path = some fs₁ →
        writeCmd fs path content =
          some (.obj [("cmd", .str "write"), ("code", .num 0)],
            writeAllFile fs₁ path d)) ∧
    (∀ payload, dataUrlStrip content = some payload →
      (base64Decode payload.toList).bind utf8Decode = none →
      writeCmd fs path content = none) := by
  refine ⟨?_, ?_, ?_⟩
  · intro hs fs₁ hc
    unfold writeCmd writeContentTransform
    simp only [hs, hc]
    rfl
  · intro payload d hs hd fs₁ hc
    unfold writeCmd writeContentTransform
    simp only [hs, hd, hc]
    rfl
  · intro payload hs hd
    unfold writeCmd writeContentTransform
    simp only [hs, hd]

/-- Witness for C3 (amended): with the `;base64` marker present the
payload `aGV5` decodes to `hey` and that is what lands in the file. -/
theorem write_data_url_spec_witness :
    writeCmd emptyFs "g" "data:text/plain;base64,aGV5" =
      some (.obj [("cmd", .str "write"), ("code", .num 0)],
        { files := [("g", "hey")], dirs := [], locked := [] }) :=
  ((write_data_url_spec emptyFs "g" "data:text/plain;base64,aGV5").2.1
    "aGV5" "hey" rfl rfl _ rfl).trans rfl

theorem sanitize_chars (s : String) :
    ∀ c ∈ (sanitize_file_name s).toList, (c.isAlphanum || c = '.') = true := by
  intro c hc
  have hc2 : c ∈ replaceDotDot ((s.toList.map Char.toLower).filter
      (fun c => c.isAlphanum || c = '.')) := hc
  have hc3 := mem_replaceDotDot _ c hc2
  exact (List.mem_filter.mp hc3).2

/-- Claim C8 counterexample: for the empty prefix (and any content) the
returned path is `/tmp/tmp__aB3xQ9.txt`: after `tmp_` its basename
continues with `_` and the mixed-case random infix, so it does not
consist of lowercase alphanumerics and dots; and the returned filesystem
does not contain the file (the `NamedTempFile` handle was dropped and
the file deleted), so reading the path back cannot yield the content. -/
theorem temp_basename_charset_counterexample :
    tempCmd sampleWorld "" "content" =
      some (.obj [("cmd", .str "temp"), ("code", .num 0),
        ("content", .str "/tmp/tmp__aB3xQ9.txt")], sampleFs) ∧
    strStartsWith (basename "/tmp/tmp__aB3xQ9.txt") "tmp_" = true ∧
    ((basename "/tmp/tmp__aB3xQ9.txt").toList.drop 4).all
      (fun c => c.isLower || c.isDigit || c = '.') = false ∧
    lookupFile sampleFs "/tmp/tmp__aB3xQ9.txt" = none :=
  ⟨rfl, rfl, rfl, rfl⟩

/-- Claim C8 (amended): when temp-file creation succeeds, `temp` returns
the path `tempDir/tmp_<sanitized>_<random>.txt`: the sanitized prefix
(lowercased, restricted to alphanumerics and dots, `..` replaced by `.`
in one pass) is followed by an `_` separator, the random infix and the
`.txt` suffix; every character of the sanitized prefix is alphanumeric
or a dot; and the file does not survive the handler (the filesystem
comes back unchanged), so the content cannot be read back afterwards. -/
theorem temp_path_and_cleanup (w : World) (pfxArg content : String)
    (h : w.tempOk = true) :
    tempCmd w pfxArg content =
      some (.obj [("cmd", .str "temp"), ("code", .num 0),
        ("content", .str (pathJoin w.tempDir
          ("tmp_" ++ sanitize_file_name pfxArg ++ "_" ++ w.tempRand ++ ".txt")))], w.fs) ∧
    ∀ c ∈ (sanitize_file_name pfxArg).toList, (c.isAlphanum || c = '.') = true := by
  constructor
  · unfold tempCmd
    rw [h]
    rfl
  · exact sanitize_chars pfxArg

/-- Witness for C8 (amended): prefix `A-b` sanitizes to `ab`. -/
theorem temp_path_and_cleanup_witness :
    tempCmd sampleWorld "A-b" "zz" =
      some (.obj [("cmd", .str "temp"), ("code", .num 0),
        ("content", .str "/tmp/tmp_ab_aB3xQ9.txt")], sampleFs) :=
  ((temp_path_and_cleanup sampleWorld "A-b" "zz" rfl).1).trans rfl

theorem fstSomeInj {α β : Type} {x : α × β} {v : α} {f : β}
    (h : some x = some (v, f)) : v = x.1 :=
  (congrArg Prod.fst (Option.some.inj h)).symm

/-- Dispatch-wide shape property: whenever `dispatch` yields a response,
its first field is `cmd` with either the matched name or `"error"`. -/
theorem dispatch_cmd_shape (w : World) (m : List (String × JValue)) (n : String)
    (v : JValue) (fs' : Fs) (h : dispatch w m n = some (v, fs')) :
    ∃ s r, v = .obj (("cmd", .str s) :: r) ∧ (s = "error" ∨ s = n) := by
  unfold dispatch at h
  split at h
  · -- env
    split at h
    · exact ⟨"error", _, (fstSomeInj h).trans rfl, Or.inl rfl⟩
    · split at h
      · exact ⟨"error", _, (fstSomeInj h).trans rfl, Or.inl rfl⟩
      · obtain ⟨r, hr⟩ := envCmd_shape w.envm _
        exact ⟨"env", r, (fstSomeInj h).trans (by rw [hr]), Or.inr rfl⟩
  · exact ⟨"version", _, (fstSomeInj h).trans rfl, Or.inr rfl⟩
  · obtain ⟨r, hr⟩ := get_config_shape w
    exact ⟨"getconfig", r, (fstSomeInj h).trans (by rw [hr]), Or.inr rfl⟩
  · rcases Option.map_eq_some'.mp h with ⟨u, hu, huv⟩
    obtain ⟨r, hr⟩ := get_config_path_shape w u hu
    exact ⟨"getconfigpath", r,
      ((congrArg Prod.fst huv).symm).trans hr, Or.inr rfl⟩
  · obtain ⟨r, hr⟩ := readCmd_shape w.fs w.envm w.home _
    exact ⟨"read", r, (fstSomeInj h).trans (by rw [hr]), Or.inr rfl⟩
  · obtain ⟨r, hr⟩ := writeCmd_shape w.fs _ _ v fs' h
    exact ⟨"write", r, hr, Or.inr rfl⟩
  · obtain ⟨r, hr⟩ := write_rc_shape w.fs w.envm w.home _ _ _
    exact ⟨"writerc", r, (fstSomeInj h).trans hr, Or.inr rfl⟩
  · obtain ⟨r, hr⟩ := move_file_shape w.fs w.envm w.home _ _ _ _ v fs' h
    exact ⟨"move", r, hr, Or.inr rfl⟩
  · obtain ⟨r, hr⟩ := create_directory_shape w.fs w.envm w.home _
    exact ⟨"mkdir", r, (fstSomeInj h).trans hr, Or.inr rfl⟩
  · obtain ⟨r, hr⟩ := read_directory_shape w.fs w.home _
    exact ⟨"list_dir", r, (fstSomeInj h).trans (by rw [hr]), Or.inr rfl⟩
  · -- temp
    rcases htc : tempCmd w (getStrD m "prefix") (getStrD m "content") with _ | result
    · rw [htc] at h
      exact ⟨"error", _, (fstSomeInj h).trans rfl, Or.inl rfl⟩
    · rw [htc] at h
      have h2 : tempCmd w (getStrD m "prefix") (getStrD m "content") = some (v, fs') := by
        rw [htc, Option.some.inj h]
      obtain ⟨r, hr⟩ := tempCmd_shape w _ _ v fs' h2
      exact ⟨"temp", r, hr, Or.inr rfl⟩
  · obtain ⟨r, hr⟩ := runCmd_shape w _ _
    exact ⟨"run", r, (fstSomeInj h).trans (by rw [hr]), Or.inr rfl⟩
  · rcases Option.map_eq_some'.mp h with ⟨u, hu, huv⟩
    have hr := run_async_shape _ u hu
    exact ⟨"run_async", [], ((congrArg Prod.fst huv).symm).trans hr, Or.inr rfl⟩
  · exact ⟨"ppid", _, (fstSomeInj h).trans rfl, Or.inr rfl⟩
  · exact ⟨"error", _, (fstSomeInj h).trans rfl, Or.inl rfl⟩

/-- Dispatch-wide panic characterisation: `dispatch` yields no response
only for `run_async` with a token-less command, `write` with an
undecodable data-URL payload, or a panicking `move`. -/
theorem dispatch_none_cases (w : World) (m : List (String × JValue)) (n : String)
    (h : dispatch w m n = none) :
    (n = "run_async" ∧ splitWhitespace (getStrD m "command") = []) ∨
    (n = "write" ∧ writeContentTransform (getStrD m "content") = none) ∨
    (n = "move" ∧ move_file w.fs w.envm w.home (getStrD m "from") (getStrD m "to")
      (getBoolD m "overwrite") (getBoolD m "cleanup") = none) := by
  unfold dispatch at h
  split at h
  · -- env
    split at h
    · exact Option.noConfusion h
    · split at h <;> exact Option.noConfusion h
  · exact Option.noConfusion h
  · exact Option.noConfusion h
  · -- getconfigpath
    obtain ⟨v0, hv⟩ := get_config_path_isSome w
    rw [hv] at h
    exact Option.noConfusion h
  · exact Option.noConfusion h
  · -- write
    exact Or.inr (Or.inl ⟨rfl, (writeCmd_none_iff w.fs _ _).mp h⟩)
  · exact Option.noConfusion h
  · -- move
    exact Or.inr (Or.inr ⟨rfl, h⟩)
  · exact Option.noConfusion h
  · exact Option.noConfusion h
  · -- temp
    split at h <;> exact Option.noConfusion h
  · exact Option.noConfusion h
  · -- run_async
    exact Or.inl ⟨rfl, (run_async_none_iff _).mp (Option.map_eq_none'.mp h)⟩
  · exact Option.noConfusion h
  · exact Option.noConfusion h

/-- Claim C10: every value `handle_command` returns is a JSON object whose
first field is `cmd` holding a string — the echo of the requested
operation name, or the literal `"error"`. -/
theorem response_has_cmd_string (w : World) (msg v : JValue) (fs' : Fs)
    (h : handle_command w msg = some (v, fs')) :
    ∃ s r, v = .obj (("cmd", .str s) :: r) ∧
      (s = "error" ∨ ∃ m, msg = .obj m ∧ dispatchName m = some s) := by
  cases msg with
  | obj m =>
    unfold handle_command at h
    have h2 : (match jLookup m "cmd" with
        | some name => dispatch w m (strOr name)
        | none => some (errorResp, w.fs)) = some (v, fs') := h
    clear h
    rcases hcm : jLookup m "cmd" with _ | nv
    · rw [hcm] at h2
      exact ⟨"error", _, (fstSomeInj h2).trans rfl, Or.inl rfl⟩
    · rw [hcm] at h2
      obtain ⟨s, r, hv, hs⟩ := dispatch_cmd_shape w m (strOr nv) v fs' h2
      refine ⟨s, r, hv, ?_⟩
      rcases hs with hs | hs
      · exact Or.inl hs
      · exact Or.inr ⟨m, rfl, by rw [dispatchName, hcm, hs]; rfl⟩
  | null => exact ⟨"error", _, (fstSomeInj h).trans rfl, Or.inl rfl⟩
  | bool b => exact ⟨"error", _, (fstSomeInj h).trans rfl, Or.inl rfl⟩
  | num x => exact ⟨"error", _, (fstSomeInj h).trans rfl, Or.inl rfl⟩
  | str s0 => exact ⟨"error", _, (fstSomeInj h).trans rfl, Or.inl rfl⟩
  | arr xs => exact ⟨"error", _, (fstSomeInj h).trans rfl, Or.inl rfl⟩

/-- Witness for C10, at the `version` request. -/
theorem response_has_cmd_string_witness :
    ∃ s r, (JValue.obj [("cmd", .str "version"), ("code", .num 0),
        ("version", .str "0.5.0")]) = .obj (("cmd", .str s) :: r) ∧
      (s = "error" ∨ ∃ m, (JValue.obj [("cmd", .str "version")] : JValue) = .obj m ∧
        dispatchName m = some s) :=
  response_has_cmd_string sampleWorld (.obj [("cmd", .str "version")]) _ sampleFs rfl

/-- Claim C1 counterexample: a `run_async` request with no `command` field
(the field defaults to the empty string, which has no whitespace-separated
token) makes `handle_command` panic in `arguments.next().unwrap()`: no
response value is produced and the process dies. -/
theorem run_async_missing_command_panics :
    handle_command sampleWorld (.obj [("cmd", .str "run_async")]) = none := rfl

/-- Claim C1 (amended): `handle_command` produces a response for every JSON
message — non-objects, objects without `cmd`, wrong-typed or extra fields
included — except that it panics (yields no response, killing the
process) in exactly three situations: a `run_async` request whose command
contains no whitespace-separated token; a `write` request whose content
matches the data-URL pattern but whose payload does not base64-decode to
UTF-8 text; and a `move` request that hits the source base-name unwrap
or whose forced cleanup removal fails. -/
theorem handle_command_panic_cases (w : World) (msg : JValue)
    (h : handle_command w msg = none) :
    ∃ m, msg = .obj m ∧
      ((dispatchName m = some "run_async" ∧ splitWhitespace (getStrD m "command") = []) ∨
       (dispatchName m = some "write" ∧ writeContentTransform (getStrD m "content") = none) ∨
       (dispatchName m = some "move" ∧
         move_file w.fs w.envm w.home (getStrD m "from") (getStrD m "to")
           (getBoolD m "overwrite") (getBoolD m "cleanup") = none)) := by
  cases msg with
  | obj m =>
    unfold handle_command at h
    have h2 : (match jLookup m "cmd" with
        | some name => dispatch w m (strOr name)
        | none => some (errorResp, w.fs)) = none := h
    clear h
    rcases hcm : jLookup m "cmd" with _ | nv
    · rw [hcm] at h2
      exact Option.noConfusion h2
    · rw [hcm] at h2
      refine ⟨m, rfl, ?_⟩
      have hd : dispatchName m = some (strOr nv) := by rw [dispatchName, hcm]; rfl
      rcases dispatch_none_cases w m (strOr nv) h2 with ⟨hn, hc⟩ | ⟨hn, hc⟩ | ⟨hn, hc⟩
      · exact Or.inl ⟨by rw [hd, hn], hc⟩
      · exact Or.inr (Or.inl ⟨by rw [hd, hn], hc⟩)
      · exact Or.inr (Or.inr ⟨by rw [hd, hn], hc⟩)
  | null => exact Option.noConfusion h
  | bool b => exact Option.noConfusion h
  | num x => exact Option.noConfusion h
  | str s0 => exact Option.noConfusion h
  | arr xs => exact Option.noConfusion h

/-- Witness for C1 (amended), applying it to the panicking empty
`run_async` request. -/
theorem handle_command_panic_cases_witness :
    ∃ m, (JValue.obj [("cmd", .str "run_async")] : JValue) = .obj m ∧
      ((dispatchName m = some "run_async" ∧ splitWhitespace (getStrD m "command") = []) ∨
       (dispatchName m = some "write" ∧ writeContentTransform (getStrD m "content") = none) ∨
       (dispatchName m = some "move" ∧
         move_file sampleWorld.fs sampleWorld.envm sampleWorld.home (getStrD m "from")
           (getStrD m "to") (getBoolD m "overwrite") (getBoolD m "cleanup") = none)) :=
  handle_command_panic_cases sampleWorld (.obj [("cmd", .str "run_async")]) rfl

end Tridactyl
